import Mathlib

/-!
Verification of the metadata cache and synchronization engine of the
"Calculate Total Duration for YouTube Tabs" browser extension.

The development shallowly embeds the TypeScript sources:
  * `src/utils/storage.ts` — `normalizeYoutubeUrl`, `updateMetadataCache`
  * `src/entrypoints/background.ts` — `handleStealthSync`
  * `src/entrypoints/youtube.content.ts` — `readMetadataFromDom` and the
    `get-metadata` message handler
  * `src/entrypoints/manager/main.ts` — `probeTabs` (the injected SPA
    detection function and the content-script retry driver)

Host-platform primitives that the sources call (`new URL(...)`,
`URLSearchParams`, JS string methods, JS object key semantics) are modelled
explicitly below; each model carries a doc comment naming the API it stands
for and the subset of its behaviour that is captured.
-/

namespace YtTabs

/-! ## JS string primitives -/

/-- Model of JS `String.prototype.includes` (substring test).
`listContainsSub h n` is true when `n` occurs contiguously inside `h`. -/
def listContainsSub : List Char → List Char → Bool
  | h, n =>
    if n.isPrefixOf h then true
    else match h with
      | [] => false
      | _ :: t => listContainsSub t n

/-- JS `haystack.includes(needle)` for strings. -/
def strContains (h n : String) : Bool :=
  listContainsSub h.toList n.toList

/-- JS `s.startsWith(p)`. -/
def jsStartsWith (s p : String) : Bool :=
  p.toList.isPrefixOf s.toList

/-- JS `s.slice(1)`. -/
def jsSlice1 (s : String) : String :=
  String.mk (s.toList.drop 1)

/-- Split a character list at every occurrence of `sep`, keeping empty
segments (the semantics of JS `String.prototype.split` with a one-character
separator). -/
def splitOnChar (sep : Char) : List Char → List (List Char)
  | [] => [[]]
  | c :: t =>
    let r := splitOnChar sep t
    if c = sep then [] :: r
    else match r with
      | [] => [[c]]
      | h :: rt => (c :: h) :: rt

/-- JS `s.split(sep)` for a one-character separator. -/
def jsSplit (s : String) (sep : Char) : List String :=
  (splitOnChar sep s.toList).map String.mk

/-- ASCII lower-casing of one character (host canonicalisation). -/
def lowerChar (c : Char) : Char :=
  if 'A' ≤ c ∧ c ≤ 'Z' then Char.ofNat (c.toNat + 32) else c

/-- A JS whitespace character (`\s`, and the set removed by
`String.prototype.trim`), restricted to ASCII. -/
def isJsSpace (c : Char) : Bool :=
  c = ' ' ∨ c = '\t' ∨ c = '\n' ∨ c = '\r' ∨ c = '\x0b' ∨ c = '\x0c'

/-- Remove the first occurrence of `pat` from `l` (JS
`s.replace(pat, "")` with a string pattern replaces only the first
occurrence). -/
def removeFirstSub : List Char → List Char → List Char
  | l, pat =>
    if pat.isPrefixOf l then l.drop pat.length
    else match l with
      | [] => []
      | c :: t => c :: removeFirstSub t pat

/-- JS `s.trim()` (ASCII whitespace). -/
def jsTrimList (l : List Char) : List Char :=
  ((l.dropWhile isJsSpace).reverse.dropWhile isJsSpace).reverse

/-- JS `s.replace(" - YouTube", "").trim()`. -/
def stripYoutubeSuffix (t : String) : String :=
  String.mk (jsTrimList (removeFirstSub t.toList " - YouTube".toList))

/-- JS `s.replace(/^\(\d+\)\s*/g, "")`: drop one leading `(digits)` group
together with the whitespace that follows it. -/
def stripNotifCount (l : List Char) : List Char :=
  match l with
  | '(' :: t =>
    let ds := t.takeWhile Char.isDigit
    let rest := t.dropWhile Char.isDigit
    if ds ≠ [] then
      match rest with
      | ')' :: r2 => r2.dropWhile isJsSpace
      | _ => l
    else l
  | _ => l

/-- The title cleanup of the content script (youtube.content.ts line 88):
strip a leading notification count, remove `" - YouTube"`, trim. -/
def cleanYtTitle (t : String) : String :=
  String.mk (jsTrimList (removeFirstSub (stripNotifCount t.toList) " - YouTube".toList))

/-! ## Model of the WHATWG URL parser (`new URL(...)`)

The sources call `new URL(url)` and read `hostname`, `pathname` and
`searchParams`.  The model below captures absolute `http(s)` URLs:
scheme, optional userinfo, host, optional decimal port, path, query,
fragment; it removes tab/newline characters and trims leading/trailing
C0-control-or-space characters as the standard does.  Percent-encoding
during serialisation, dot-segment normalisation, IPv6 hosts and IDNA are
outside the modelled subset (inputs exercising them are not used in any
theorem below; non-`http(s)` schemes are mapped to a parse failure, which
makes `normalizeYoutubeUrl` return its input unchanged exactly as the real
code does for such inputs). -/

structure UrlParts where
  hostname : String
  pathname : String
  query : String
deriving DecidableEq, Repr

/-- A scheme character after the first: ASCII alphanumeric, `+`, `-`, `.`. -/
def isSchemeChar (c : Char) : Bool :=
  c.isAlpha ∨ c.isDigit ∨ c = '+' ∨ c = '-' ∨ c = '.'

/-- C0 control or space (trimmed from both ends by the URL parser). -/
def isC0OrSpace (c : Char) : Bool :=
  c.toNat ≤ 32

/-- Tab / LF / CR (removed everywhere by the URL parser). -/
def isTabOrNewline (c : Char) : Bool :=
  c = '\t' ∨ c = '\n' ∨ c = '\r'

/-- End of the authority component. -/
def isAuthEnd (c : Char) : Bool :=
  c = '/' ∨ c = '\\' ∨ c = '?' ∨ c = '#'

/-- Keep the part of the authority after the last `@` (strip userinfo). -/
def afterLastAt (l : List Char) : List Char :=
  (l.reverse.takeWhile (· ≠ '@')).reverse

/-- Host validation and canonicalisation: split off a decimal port, reject
empty hosts and hosts containing characters outside the modelled subset,
lower-case ASCII letters. -/
def parseHost (auth : List Char) : Option String :=
  let hostport := afterLastAt auth
  let host := hostport.takeWhile (· ≠ ':')
  let port := hostport.dropWhile (· ≠ ':')
  let portOk := match port with
    | [] => true
    | _ :: ds => ds.all Char.isDigit
  if host.isEmpty then none
  else if host.any (fun c => c = '[' ∨ c = ']' ∨ c = '%' ∨ c = ' ' ∨ c = ':') then none
  else if portOk then some (String.mk (host.map lowerChar)) else none

/-- Path and query of the remainder that follows the authority. -/
def parsePathQuery (rest : List Char) : String × String :=
  match rest with
  | [] => ("/", "")
  | '?' :: q => ("/", String.mk (q.takeWhile (· ≠ '#')))
  | '#' :: _ => ("/", "")
  | cs =>
    let path := cs.takeWhile (fun c => c ≠ '?' ∧ c ≠ '#')
    let rest2 := cs.dropWhile (fun c => c ≠ '?' ∧ c ≠ '#')
    let q := match rest2 with
      | '?' :: qq => String.mk (qq.takeWhile (· ≠ '#'))
      | _ => ""
    (String.mk (path.map (fun c => if c = '\\' then '/' else c)), q)

/-- Authority, path and query of the part after `scheme:`. -/
def parseAfterScheme (r : List Char) : Option UrlParts :=
  let r3 := r.dropWhile (fun c => c = '/' ∨ c = '\\')
  let auth := r3.takeWhile (fun c => ¬ isAuthEnd c)
  let rest := r3.dropWhile (fun c => ¬ isAuthEnd c)
  match parseHost auth with
  | none => none
  | some host =>
    let pq := parsePathQuery rest
    some ⟨host, pq.1, pq.2⟩

/-- Input sanitisation of the URL parser: remove tab/newline characters
and trim C0-control-or-space characters from both ends. -/
def sanitizeUrl (s : String) : List Char :=
  let cs0 := s.toList.filter (fun c => ¬ isTabOrNewline c)
  let cs1 := cs0.dropWhile isC0OrSpace
  (cs1.reverse.dropWhile isC0OrSpace).reverse

/-- Scheme recognition on the sanitised input. -/
def parseScheme (cs : List Char) : Option UrlParts :=
  match cs with
  | [] => none
  | c :: _ =>
    if c.isAlpha then
      match cs.dropWhile isSchemeChar with
      | ':' :: r2 =>
        if String.mk ((cs.takeWhile isSchemeChar).map lowerChar) = "http"
            ∨ String.mk ((cs.takeWhile isSchemeChar).map lowerChar) = "https"
        then parseAfterScheme r2 else none
      | _ => none
    else none

/-- Model of `new URL(url)` restricted as documented above: `none` stands
for the constructor throwing. -/
def parseUrl (s : String) : Option UrlParts :=
  parseScheme (sanitizeUrl s)

/-! ## Model of `URLSearchParams` -/

/-- One hex digit. -/
def hexVal (c : Char) : Option Nat :=
  if '0' ≤ c ∧ c ≤ '9' then some (c.toNat - '0'.toNat)
  else if 'a' ≤ c ∧ c ≤ 'f' then some (c.toNat - 'a'.toNat + 10)
  else if 'A' ≤ c ∧ c ≤ 'F' then some (c.toNat - 'A'.toNat + 10)
  else none

/-- Form-urlencoded (`application/x-www-form-urlencoded`) decoding: `+` becomes a space and
`%hh` is decoded bytewise (multi-byte UTF-8 sequences are decoded byte by
byte; no theorem below depends on non-ASCII decoding).  An invalid escape
leaves the `%` literal. -/
def pctDecode : List Char → List Char
  | [] => []
  | c :: t =>
    if c = '%' then
      match t with
      | a :: b :: t2 =>
        match hexVal a, hexVal b with
        | some x, some y => Char.ofNat (16 * x + y) :: pctDecode t2
        | _, _ => '%' :: pctDecode (a :: b :: t2)
      | t1 => '%' :: pctDecode t1
    else if c = '+' then ' ' :: pctDecode t
    else c :: pctDecode t

/-- Split one `name=value` segment (everything before the first `=` is the
name; a segment without `=` has the empty value, as in the standard). -/
def segNameValue (seg : List Char) : String × String :=
  let n := seg.takeWhile (· ≠ '=')
  let v := match seg.dropWhile (· ≠ '=') with
    | '=' :: rest => rest
    | _ => []
  (String.mk (pctDecode n), String.mk (pctDecode v))

/-- Model of `new URLSearchParams(query).get(name)`: split on `&`, drop
empty segments, return the decoded value of the first pair whose decoded
name matches. -/
def searchParamsGet (query : String) (name : String) : Option String :=
  let segs := (splitOnChar '&' query.toList).filter (fun seg => ¬ seg.isEmpty)
  (segs.map segNameValue).lookup name

/-! ## `normalizeYoutubeUrl` (src/utils/storage.ts, lines 25–50) -/

/-- The shorts fall-through of `normalizeYoutubeUrl` (storage.ts lines
40–46): `/shorts/{id}` is rewritten to the canonical watch form, anything
else returns the input. -/
def shortsFallback (u : UrlParts) (url : String) : String :=
  if jsStartsWith u.pathname "/shorts/" then
    match (jsSplit u.pathname '/').get? 2 with
    | some shortId => if shortId ≠ "" then "https://www.youtube.com/watch?v=" ++ shortId else url
    | none => url
  else url

/-- Function `normalizeYoutubeUrl` from src/utils/storage.ts: canonicalise the
accepted YouTube URL forms to `https://www.youtube.com/watch?v=ID`; parse
failures and unrecognised hosts return the input unchanged. -/
def normalizeYoutubeUrl (url : String) : String :=
  match parseUrl url with
  | none => url
  | some u =>
    if ¬ (strContains u.hostname "youtube.com") ∧ ¬ (strContains u.hostname "youtu.be") then url
    else if strContains u.hostname "youtu.be" then
      let videoId := jsSlice1 u.pathname
      if videoId ≠ "" then "https://www.youtube.com/watch?v=" ++ videoId else url
    else
      match searchParamsGet u.query "v" with
      | some v => if v ≠ "" then "https://www.youtube.com/watch?v=" ++ v else shortsFallback u url
      | none => shortsFallback u url

/-! ## Metadata cache store (src/utils/storage.ts, lines 16–23 and 135–156)

The persisted cache is a JS object `Record<string, CachedMetadata>`.  A JS
object is modelled as an association list in property order: string keys
are unique, assigning an existing key updates it in place, assigning a new
key appends it, and `Object.keys` lists keys in that order.  `Date.now()`
is modelled by an explicit `now` argument. -/

/-- Structure `CachedMetadata` from src/utils/storage.ts. -/
structure CachedMetadata where
  seconds : ℚ
  title : String
  channelName : String
  currentTime : ℚ
  isLive : Bool
  timestamp : Nat
deriving DecidableEq, Repr

/-- The shape `Omit<CachedMetadata, "timestamp">`: the argument of
`updateMetadataCache` and `requestMetadataUpdate`. -/
structure MetadataIn where
  seconds : ℚ
  title : String
  channelName : String
  currentTime : ℚ
  isLive : Bool
deriving DecidableEq, Repr

/-- The `metadataCache` object: keys in property order. -/
abbrev Cache := List (String × CachedMetadata)

/-- JS property read `cache[k]` (first — and in a real object only —
binding of `k`). -/
def objGet : Cache → String → Option CachedMetadata
  | [], _ => none
  | (k', v) :: t, k => if k' = k then some v else objGet t k

/-- JS property write `cache[k] = v`: update in place (keeping the
property's position) when the key exists, append otherwise. -/
def objSet : Cache → String → CachedMetadata → Cache
  | [], k, v => [(k, v)]
  | p :: t, k, v => if p.1 = k then (k, v) :: t else p :: objSet t k v

/-- JS `delete cache[k]`: remove the binding of `k`. -/
def objDelete : Cache → String → Cache
  | [], _ => []
  | p :: t, k => if p.1 = k then objDelete t k else p :: objDelete t k

/-- One comparison step of the stable sort-by-timestamp: keep the earlier
entry unless the later one is strictly older. -/
def pickOlder (best q : String × CachedMetadata) : String × CachedMetadata :=
  if q.2.timestamp < best.2.timestamp then q else best

/-- The entry selected by
`Object.keys(cache).sort((a, b) => cache[a].timestamp - cache[b].timestamp)[0]`:
JS `Array.prototype.sort` is stable, so the head of the sorted key list is
the earliest key (in property order) holding the minimal timestamp. -/
def oldestEntry : Cache → Option (String × CachedMetadata)
  | [] => none
  | p :: t => some (t.foldl pickOlder p)

/-- The eviction step of `updateMetadataCache` (storage.ts lines
148–153): when the entry count exceeds 200, delete the single entry picked
by the stable sort on timestamps. -/
def evictIfOversized (c : Cache) : Cache :=
  if 200 < c.length then
    match oldestEntry c with
    | some p => objDelete c p.1
    | none => c
  else c

/-- Function `updateMetadataCache` from src/utils/storage.ts (lines 135–156): write
the incoming metadata (with a fresh timestamp) under the normalised URL,
then, if the entry count exceeds 200, delete the single oldest-by-timestamp
entry. -/
def updateMetadataCache (now : Nat) (url : String) (m : MetadataIn) (cache : Cache) : Cache :=
  evictIfOversized (objSet cache (normalizeYoutubeUrl url)
    ⟨m.seconds, m.title, m.channelName, m.currentTime, m.isLive, now⟩)

/-! ## Background sync (src/entrypoints/background.ts, lines 16–107)

`handleStealthSync` maps over the batch with `Promise.all`, fetching each
tab's URL and extracting metadata from the response text.  The network and
the regex/JSON extraction layer are modelled by an environment mapping a
URL to the outcome of fetching it, with the fetched document abstracted
into the fields the extraction code reads:

  * `hasConsentRedirect`  — `html.includes("consent.youtube.com")`;
  * `playerResponse`      — the `ytInitialPlayerResponse` regex match
    together with a successful `JSON.parse` (`none` covers both a failed
    match and a parse exception, which the code catches);
  * `approxDurationMs`    — the `"approxDurationMs"` fallback regex;
  * `titleTag`            — the `<title>…</title>` fallback regex
    (match group, before the `" - YouTube"` strip and trim);
  * `authorField`         — the `"author"` / `"ownerChannelName"`
    fallback regex.

Events are listed per tab in batch order followed by the final
`sync-complete`; the claims below only use membership and counts, which
are insensitive to the interleaving of the parallel tasks. -/

/-- The fields of `ytInitialPlayerResponse.videoDetails` the code reads;
a missing string field is the empty string (the code applies `|| ""`),
and `lengthSeconds` is modelled after `parseInt(…) || 0`. -/
structure BgVideoDetails where
  title : String
  author : String
  isLive : Bool
  lengthSeconds : Nat
deriving DecidableEq, Repr

/-- The parsed `ytInitialPlayerResponse` as read by the code:
`liveBroadcastNoEnd` stands for
`microformat.playerMicroformatRenderer.liveBroadcastDetails` being present
without an `endTimestamp`. -/
structure BgPlayerResponse where
  videoDetails : Option BgVideoDetails
  liveBroadcastNoEnd : Bool
deriving DecidableEq, Repr

/-- A fetched document, abstracted to the fields the extraction reads. -/
structure FetchedPage where
  hasConsentRedirect : Bool
  playerResponse : Option BgPlayerResponse
  approxDurationMs : Option Nat
  titleTag : Option String
  authorField : Option String
deriving DecidableEq, Repr

/-- Outcome of `fetch(url)` followed by `response.text()`: a document, or a
network error (caught by the per-tab `try`/`catch`). -/
inductive FetchOutcome where
  | ok (page : FetchedPage)
  | err
deriving DecidableEq, Repr

/-- A `{id, url}` element of the `sync-all` batch. -/
structure TabToSync where
  id : Nat
  url : String
deriving DecidableEq, Repr

/-- Runtime messages emitted by the background handler. -/
inductive BgEvent where
  | tabSynced (tabId : Nat) (seconds : ℚ) (title : String) (channelName : String) (isLive : Bool)
  | syncComplete
  | syncError (message : String)
deriving DecidableEq, Repr

/-- Whether an event is a `sync-error` message. -/
def isSyncErrorEvent : BgEvent → Bool
  | .syncError _ => true
  | _ => false

/-- JS `" - YouTube"` strip and trim applied to the `<title>` fallback
(background.ts line 79). -/
def cleanTitleTag (t : String) : String :=
  stripYoutubeSuffix t

/-- The `playerResponse` part of the extraction (background.ts lines
43–70): duration, title, channel and live status, with the three live
priorities — `videoDetails.isLive`, a broadcast start without end, and a
positive `lengthSeconds` overriding both. -/
def extractFromPlayer : Option BgPlayerResponse → ℚ × String × String × Bool
  | none => (0, "", "", false)
  | some pr =>
    match pr.videoDetails with
    | none => (0, "", "", false)
    | some vd =>
      let isLive1 := vd.isLive
      let isLive2 := if pr.liveBroadcastNoEnd then true else isLive1
      if 0 < vd.lengthSeconds then ((vd.lengthSeconds : ℚ), vd.title, vd.author, false)
      else (0, vd.title, vd.author, isLive2)

/-- The `tab-synced` payload computed for one tab of the batch
(background.ts lines 24–99), or `none` when no event is emitted (network
error, consent redirect, or no usable data). -/
def processPayload (env : String → FetchOutcome) (url : String) :
    Option (ℚ × String × String × Bool) :=
  match env url with
  | .err => none
  | .ok page =>
    if page.hasConsentRedirect then none
    else
      let e := extractFromPlayer page.playerResponse
      let duration := if e.1 = 0 then
          (match page.approxDurationMs with
           | some ms => (ms : ℚ) / 1000
           | none => 0)
        else e.1
      let title := if e.2.1 = "" then
          (match page.titleTag with
           | some t => cleanTitleTag t
           | none => "")
        else e.2.1
      let channel := if e.2.2.1 = "" then
          (match page.authorField with
           | some a => a
           | none => "")
        else e.2.2.1
      let isLive := e.2.2.2
      if 0 < duration ∨ title ≠ "" ∨ isLive then
        some (duration,
              (if title = "" then "Loaded Video" else title),
              (if channel = "" then "Unknown Channel" else channel),
              isLive)
      else none

/-- The events one tab of the batch contributes. -/
def processTab (env : String → FetchOutcome) (tab : TabToSync) : List BgEvent :=
  match processPayload env tab.url with
  | some p => [.tabSynced tab.id p.1 p.2.1 p.2.2.1 p.2.2.2]
  | none => []

/-- The observable trace of one `handleStealthSync` run: the URLs for
which a fetch was started (one per batch element, in batch order — line 25
runs unconditionally inside every mapped task) and the emitted runtime
messages. -/
structure SyncTrace where
  fetched : List String
  events : List BgEvent
deriving DecidableEq, Repr

/-- Function `handleStealthSync` from src/entrypoints/background.ts (lines
21–107). -/
def handleStealthSync (env : String → FetchOutcome) (tabs : List TabToSync) : SyncTrace :=
  { fetched := tabs.map (·.url)
  , events := (tabs.map (processTab env)).flatten ++ [.syncComplete] }

/-! ## Content script (src/entrypoints/youtube.content.ts)

`readMetadataFromDom` reads the media element, a visible duration label,
title/channel selectors and the live badge.  The DOM is abstracted into
the values those reads return; JS falsiness (`null`, `""`, `0`, `NaN`) is
made explicit field by field. -/

/-- Structure `CachedMetadataPayload` from youtube.content.ts. -/
structure CachedMetadataPayload where
  videoId : Option String
  title : String
  channelName : String
  seconds : ℚ
  currentTime : ℚ
  isLive : Bool
deriving DecidableEq, Repr

/-- The DOM state as seen by `readMetadataFromDom`:
  * `videoPresent` / `videoCurrentTime` / `videoDuration` — the
    `<video>` element; `videoDuration = none` covers an absent element and
    a `NaN`/infinite duration (the code guards with `isFinite`);
  * `durationText` — `.ytp-time-duration` text content (`none`: absent);
  * `titleText` — the first truthy value of the title selector chain
    before the `document.title` fallback (`none`: all selectors missed);
  * `docTitle` — `document.title`;
  * `channelText` — the first truthy value of the channel selector chain
    (`none`: all selectors missed, giving `""`);
  * `liveBadgeVisible` — a `.ytp-live-badge` element exists and its
    computed display is not `"none"`;
  * `pathname` / `search` — `window.location`. -/
structure ContentDom where
  videoPresent : Bool
  videoCurrentTime : ℚ
  videoDuration : Option ℚ
  durationText : Option String
  titleText : Option String
  docTitle : String
  channelText : Option String
  liveBadgeVisible : Bool
  pathname : String
  search : String
deriving DecidableEq, Repr

/-- JS `parseInt(p, 10) || 0` on one colon-separated component: leading
decimal digits, `0` when there are none (`NaN || 0`). -/
def parseIntOr0 (s : String) : Nat :=
  (s.toList.takeWhile Char.isDigit).foldl (fun a c => 10 * a + (c.toNat - '0'.toNat)) 0

/-- Function `parseDurationFromTimeText` from youtube.content.ts (lines 53–59). -/
def parseDurationFromTimeText (text : String) : Nat :=
  let parts := (jsSplit (String.mk (jsTrimList text.toList)) ':').map parseIntOr0
  match parts with
  | [h, m, s] => h * 3600 + m * 60 + s
  | [m, s] => m * 60 + s
  | [s] => s
  | _ => 0

/-- The constructor `new URLSearchParams(window.location.search)` strips one leading `?`. -/
def jsStripLeadingQm (s : String) : String :=
  if jsStartsWith s "?" then jsSlice1 s else s

/-- The match group of `path.match(/\/shorts\/([^/?]+)/)` under the guard
`path.startsWith("/shorts/")`: the non-empty run after the `/shorts/`
prefix up to the next `/` or `?`. -/
def shortsIdOf (pathname : String) : Option String :=
  if jsStartsWith pathname "/shorts/" then
    let idPart := String.mk ((pathname.toList.drop 8).takeWhile (fun c => c ≠ '/' ∧ c ≠ '?'))
    if idPart ≠ "" then some idPart else none
  else none

/-- Function `getVideoIdFromLocation` from youtube.content.ts (lines 35–51). -/
def getVideoIdFromLocation (pathname search : String) : Option String :=
  if jsStartsWith pathname "/shorts/" then
    shortsIdOf pathname
  else if pathname = "/watch" ∧ search ≠ "" then
    searchParamsGet (jsStripLeadingQm search) "v"
  else none

/-- Function `readMetadataFromDom` from youtube.content.ts (lines 61–110). -/
def readMetadataFromDom (dom : ContentDom) : CachedMetadataPayload :=
  let videoId := getVideoIdFromLocation dom.pathname dom.search
  let currentTime := if dom.videoPresent then dom.videoCurrentTime else 0
  let d1 : ℚ := match (if dom.videoPresent then dom.videoDuration else none) with
    | some d => if 0 < d then d else 0
    | none => 0
  let d2 : ℚ := if d1 = 0 then
      (match dom.durationText with
       | some t => if t ≠ "" then (parseDurationFromTimeText t : ℚ) else 0
       | none => 0)
    else d1
  let d3 : ℚ := if d2 = 0 then
      (match (if dom.videoPresent then dom.videoDuration else none) with
       | some d => if 0 < d then d else d2
       | none => d2)
    else d2
  let title0 := match dom.titleText with
    | some t => if t ≠ "" then t else dom.docTitle
    | none => dom.docTitle
  let title := cleanYtTitle title0
  let channelName := match dom.channelText with
    | some c => if c ≠ "" then c else ""
    | none => ""
  let isLive := dom.liveBadgeVisible
  { videoId := videoId
  , title := if title ≠ "" then title else "YouTube Video"
  , channelName := channelName
  , seconds := if isLive then 0 else d3
  , currentTime := currentTime
  , isLive := isLive }

/-- The initial `lastMetadata` value (youtube.content.ts lines 24–31). -/
def initialLastMetadata : CachedMetadataPayload :=
  { videoId := none, title := "", channelName := "", seconds := 0
  , currentTime := 0, isLive := false }

/-- One `get-metadata` request (youtube.content.ts lines 159–165): on a
watch/shorts page `lastMetadata` is refreshed from the DOM first; the
response is the resulting `lastMetadata`. -/
def getMetadataStep (prev : CachedMetadataPayload) (onWatchOrShorts : Bool)
    (dom : ContentDom) : CachedMetadataPayload :=
  if onWatchOrShorts then readMetadataFromDom dom else prev

/-! ## Manager probe (src/entrypoints/manager/main.ts)

`probeTabs` injects a function into each tab.  The injected function
(lines 185–298) first derives the current video identity from
`window.location` and compares it with the identity in the structured
`ytInitialPlayerResponse`; on a mismatch it reports an SPA transition
instead of taking the optimistic skip path or scraping.  The full-scrape
tail of the injected function (lines 217–297) is abstracted into an
environment-provided value: the claims below concern only the branch
structure (lines 189–215) and the retry driver (lines 301–327), which are
modelled in full. -/

/-- Function `getVideoIdFromUrl` from src/utils/format.ts (the manager's
`expectedVideoId`). -/
def getVideoIdFromUrl (url : String) : Option String :=
  match parseUrl url with
  | none => none
  | some u =>
    if jsStartsWith u.pathname "/shorts/" then shortsIdOf u.pathname
    else searchParamsGet u.query "v"

/-- The result of the full-scrape tail of the injected function
(manager/main.ts lines 279–286 and 289–296), abstracted. -/
structure FullScrape where
  duration : ℚ
  currentTime : ℚ
  channelName : String
  title : String
  isLive : Bool
deriving DecidableEq, Repr

/-- The page state read by the head of the injected function:
`currentTime` from the media element, `pathname`/`search` from
`window.location`, `playerVideoId` from
`ytInitialPlayerResponse.videoDetails.videoId`, and the abstracted
full-scrape result. -/
structure ProbeEnv where
  currentTime : ℚ
  pathname : String
  search : String
  playerVideoId : Option String
  fullResult : FullScrape
deriving DecidableEq, Repr

/-- JS truthiness of a nullable string. -/
def truthyStr : Option String → Bool
  | none => false
  | some s => s ≠ ""

/-- The three possible returns of the injected function. -/
inductive InjectResult where
  | skip (currentTime : ℚ)
  | spa (currentTime : ℚ) (currentVideoId : Option String)
  | full (r : FullScrape)
deriving DecidableEq, Repr

/-- The `currentVideoId` value as computed by the injected function (manager/main.ts
lines 190–194): `searchParams "v" || shortsMatch[1] || null` with JS
falsiness. -/
def currentVideoIdOf (env : ProbeEnv) : Option String :=
  let v := searchParamsGet (jsStripLeadingQm env.search) "v"
  if truthyStr v then v
  else if truthyStr (shortsIdOf env.pathname) then shortsIdOf env.pathname
  else none

/-- The SPA-transition test (manager/main.ts line 201):
`playerVideoId && currentVideoId && playerVideoId !== currentVideoId`. -/
def isSpaTransition (env : ProbeEnv) : Bool :=
  truthyStr env.playerVideoId ∧ truthyStr (currentVideoIdOf env) ∧
    env.playerVideoId ≠ currentVideoIdOf env

/-- The injected probe function (manager/main.ts lines 185–298): the
optimistic skip is taken only when cached metadata exists and no SPA
transition is detected; a detected SPA transition returns early with a
flag; otherwise the full scrape runs. -/
def injectedProbe (hasMetadata : Bool) (env : ProbeEnv) : InjectResult :=
  if hasMetadata ∧ ¬ isSpaTransition env then .skip env.currentTime
  else if isSpaTransition env then .spa env.currentTime (currentVideoIdOf env)
  else .full env.fullResult

/-- The per-video mutable state the retry driver updates. -/
structure VideoState where
  title : String
  channelName : String
  seconds : ℚ
  currentTime : ℚ
  isLive : Bool
deriving DecidableEq, Repr

/-- The acceptance test of a content-script response (manager/main.ts
line 309): `meta?.videoId === expectedVideoId && meta?.title &&
(meta.seconds > 0 || meta.isLive)`; a `null` response (no listener,
rejected message) fails it. -/
def contentMetaOk (meta : Option CachedMetadataPayload) (expected : Option String) : Bool :=
  match meta with
  | none => false
  | some m => m.videoId = expected ∧ m.title ≠ "" ∧ (0 < m.seconds ∨ m.isLive)

/-- Applying an accepted content-script response (manager/main.ts lines
310–314). -/
def applyContentMeta (v : VideoState) (m : CachedMetadataPayload) : VideoState :=
  { v with
    title := m.title
    channelName := m.channelName
    seconds := m.seconds
    currentTime := m.currentTime
    isLive := m.isLive }

/-- Outcome of the SPA-transition retry driver. -/
structure SpaRetryResult where
  video : VideoState
  /-- Number of `get-metadata` reads attempted in this cycle. -/
  reads : Nat
  /-- Backoff in milliseconds waited before the second read (0 when the
  first read already succeeded). -/
  waitedMs : Nat
  /-- Whether a response was accepted this cycle. -/
  resolved : Bool
deriving DecidableEq, Repr

/-- The SPA branch of the outer probe handler (manager/main.ts lines
305–327): set `currentTime` from the probe, ask the content script once,
and on failure retry exactly once more after a fixed 500 ms backoff;
when the retry also fails, leave the metadata untouched for this cycle.
`resp1`/`resp2` are the two content-script responses the environment
would deliver. -/
def spaRetry (v : VideoState) (probeCurrentTime : ℚ) (expected : Option String)
    (resp1 resp2 : Option CachedMetadataPayload) : SpaRetryResult :=
  let v0 : VideoState := { v with currentTime := probeCurrentTime }
  match resp1, contentMetaOk resp1 expected with
  | some m1, true => ⟨applyContentMeta v0 m1, 1, 0, true⟩
  | _, _ =>
    match resp2, contentMetaOk resp2 expected with
    | some m2, true => ⟨applyContentMeta v0 m2, 2, 500, true⟩
    | _, _ => ⟨v0, 2, 500, false⟩

/-! ## Concrete inputs used by counterexamples and witnesses -/

/-- The canonical watch form of a video id. -/
def canonicalWatchUrl (id : String) : String :=
  "https://www.youtube.com/watch?v=" ++ id

/-- A video id character that survives a round trip through the query
string: ASCII letters, digits, `-` and `_` (the YouTube id alphabet). -/
def isSafeIdChar (c : Char) : Bool :=
  c.isAlpha ∨ c.isDigit ∨ c = '-' ∨ c = '_'

/-- A non-empty id consisting of query-safe characters. -/
def isSafeId (s : String) : Bool :=
  ¬ s.toList.isEmpty ∧ s.toList.all isSafeIdChar

/-- A 200-entry cache with pairwise distinct keys (used to witness the
eviction bound). -/
def eviction_cache : Cache :=
  (List.range 200).map (fun i => (Nat.repr i, ⟨60, "t", "c", 0, false, i⟩))

/-- A one-entry cache holding a known 600-second duration for the
canonical URL (used by the merge claims). -/
def merge_cache : Cache :=
  [(canonicalWatchUrl "abc12345678", ⟨600, "A", "Ch", 0, false, 1000⟩)]

/-- The incoming transient bad read used by the merge claims: zero
duration, not live. -/
def merge_incoming : MetadataIn :=
  ⟨0, "A", "Ch", 0, false⟩

/-- A two-entry cache with timestamps in the past (used to witness the
write-through claim). -/
def write_through_cache : Cache :=
  [("k1", ⟨60, "t", "c", 0, false, 100⟩), ("k2", ⟨0, "u", "d", 0, true, 4000⟩)]

/-- A fetched page whose structured data yields a 300-second video. -/
def goodPage : FetchedPage :=
  ⟨false, some ⟨some ⟨"T", "C", false, 300⟩, false⟩, none, none, none⟩

/-- A rate-limit/CAPTCHA interstitial as the background code would see it:
no consent marker, no parsable player response, no duration fallback, a
`<title>` of the interstitial. -/
def rateLimitPage : FetchedPage :=
  ⟨false, none, none, some "Sorry... - YouTube", none⟩

/-- Environment for the dedup scenario: every URL serves `goodPage`. -/
def envGood : String → FetchOutcome := fun _ => .ok goodPage

/-- Environment for the rate-limit scenario: the second URL serves the
interstitial, the others serve `goodPage`. -/
def envRateLimited : String → FetchOutcome := fun u =>
  if u = canonicalWatchUrl "v2" then .ok rateLimitPage else .ok goodPage

/-- The five-tab batch of the rate-limit scenario. -/
def rateLimitBatch : List TabToSync :=
  [⟨1, canonicalWatchUrl "v1"⟩, ⟨2, canonicalWatchUrl "v2"⟩,
   ⟨3, canonicalWatchUrl "v3"⟩, ⟨4, canonicalWatchUrl "v4"⟩,
   ⟨5, canonicalWatchUrl "v5"⟩]

/-- A DOM state showing a visible live badge (used to witness the live
payload invariant). -/
def live_dom : ContentDom :=
  ⟨true, 5, some 100, none, some "T", "Doc", some "Ch", true, "/watch", "?v=x"⟩

/-- A probed page whose structured data still carries the previous
video's id while the location already shows the new one (an SPA
navigation race). -/
def spa_env : ProbeEnv :=
  ⟨7, "/watch", "?v=newid123", some "oldid456", ⟨0, 0, "", "", false⟩⟩

/-- The per-video state before the SPA retry. -/
def spa_video : VideoState :=
  ⟨"Old title", "Old channel", 100, 3, false⟩

/-! # Theorems
    ## Cache store lemmas -/

theorem objGet_objSet_self (c : Cache) (k : String) (v : CachedMetadata) :
    objGet (objSet c k v) k = some v := by
  induction c with
  | nil => simp [objGet, objSet]
  | cons p t ih =>
    by_cases h : p.1 = k
    · simp [objSet, objGet, h]
    · simp [objSet, objGet, h, ih]

theorem objSet_length (c : Cache) (k : String) (v : CachedMetadata) :
    (objSet c k v).length
      = if (objGet c k).isSome then c.length else c.length + 1 := by
  induction c with
  | nil => simp [objGet, objSet]
  | cons p t ih =>
    by_cases h : p.1 = k
    · obtain ⟨k', w⟩ := p
      simp only at h
      simp [objSet, objGet, h]
    · obtain ⟨k', w⟩ := p
      simp only at h
      simp only [objSet, objGet, h, if_neg, if_false, List.length_cons, ih]
      split <;> simp

theorem objSet_of_absent (c : Cache) (k : String) (v : CachedMetadata)
    (h : objGet c k = none) : objSet c k v = c ++ [(k, v)] := by
  induction c with
  | nil => simp [objSet]
  | cons p t ih =>
    obtain ⟨k', w⟩ := p
    by_cases hk : k' = k
    · simp [objGet, hk] at h
    · simp [objGet, hk] at h
      simp [objSet, hk, ih h]

theorem objGet_eq_none_iff (c : Cache) (k : String) :
    objGet c k = none ↔ ∀ p ∈ c, p.1 ≠ k := by
  induction c with
  | nil => simp [objGet]
  | cons p t ih =>
    obtain ⟨k', w⟩ := p
    by_cases h : k' = k
    · simp [objGet, h]
    · simp [objGet, h, ih]

theorem objGet_objDelete_ne (c : Cache) (k k0 : String) (h : k ≠ k0) :
    objGet (objDelete c k0) k = objGet c k := by
  induction c with
  | nil => rfl
  | cons p t ih =>
    obtain ⟨k', w⟩ := p
    by_cases hk : k' = k0
    · subst hk
      have hne : ¬ (k' = k) := fun he => h he.symm
      simp [objDelete, objGet, hne, ih]
    · simp only [objDelete, objGet, hk, if_neg, if_false]
      by_cases hk2 : k' = k
      · simp [objGet, hk2]
      · simp [objGet, hk2, ih]

theorem objDelete_of_absent (c : Cache) (k : String) (h : objGet c k = none) :
    objDelete c k = c := by
  induction c with
  | nil => rfl
  | cons p t ih =>
    obtain ⟨k', w⟩ := p
    by_cases hk : k' = k
    · simp [objGet, hk] at h
    · simp [objGet, hk] at h
      simp [objDelete, hk, ih h]

theorem objDelete_length_of_mem (c : Cache) (p : String × CachedMetadata)
    (hnd : (c.map Prod.fst).Nodup) (hp : p ∈ c) :
    (objDelete c p.1).length + 1 = c.length := by
  induction c with
  | nil => simp at hp
  | cons q t ih =>
    simp only [List.map_cons, List.nodup_cons] at hnd
    rcases List.mem_cons.mp hp with he | ht
    · have hhead : q.1 = p.1 := by rw [he]
      have habs : objGet t p.1 = none := by
        rw [objGet_eq_none_iff]
        intro r hr hcontra
        apply hnd.1
        rw [hhead, ← hcontra]
        exact List.mem_map_of_mem Prod.fst hr
      simp [objDelete, hhead, objDelete_of_absent t p.1 habs]
    · have hq : ¬ (q.1 = p.1) := by
        intro hcontra
        apply hnd.1
        rw [hcontra]
        exact List.mem_map_of_mem Prod.fst ht
      simp only [objDelete, hq, if_neg, if_false, List.length_cons]
      have := ih hnd.2 ht
      omega

theorem foldl_pickOlder_mem (t : List (String × CachedMetadata))
    (a : String × CachedMetadata) :
    t.foldl pickOlder a = a ∨ t.foldl pickOlder a ∈ t := by
  induction t generalizing a with
  | nil => left; rfl
  | cons q r ih =>
    simp only [List.foldl_cons]
    by_cases hlt : q.2.timestamp < a.2.timestamp
    · have hp : pickOlder a q = q := by simp [pickOlder, hlt]
      rw [hp]
      rcases ih q with h | h
      · right; rw [h]; exact List.mem_cons_self q r
      · right; exact List.mem_cons_of_mem q h
    · have hp : pickOlder a q = a := by simp [pickOlder, hlt]
      rw [hp]
      rcases ih a with h | h
      · left; exact h
      · right; exact List.mem_cons_of_mem q h

theorem foldl_pickOlder_le_acc (t : List (String × CachedMetadata))
    (a : String × CachedMetadata) :
    (t.foldl pickOlder a).2.timestamp ≤ a.2.timestamp := by
  induction t generalizing a with
  | nil => exact Nat.le_refl _
  | cons q r ih =>
    simp only [List.foldl_cons]
    refine Nat.le_trans (ih (pickOlder a q)) ?_
    by_cases hlt : q.2.timestamp < a.2.timestamp
    · have hp : pickOlder a q = q := by simp [pickOlder, hlt]
      rw [hp]
      exact Nat.le_of_lt hlt
    · have hp : pickOlder a q = a := by simp [pickOlder, hlt]
      rw [hp]

theorem foldl_pickOlder_le_mem (t : List (String × CachedMetadata))
    (a q : String × CachedMetadata) (hq : q ∈ t) :
    (t.foldl pickOlder a).2.timestamp ≤ q.2.timestamp := by
  induction t generalizing a with
  | nil => simp at hq
  | cons r s ih =>
    simp only [List.foldl_cons]
    rcases List.mem_cons.mp hq with he | ht
    · subst he
      refine Nat.le_trans (foldl_pickOlder_le_acc s (pickOlder a q)) ?_
      by_cases hlt : q.2.timestamp < a.2.timestamp
      · have hp : pickOlder a q = q := by simp [pickOlder, hlt]
        rw [hp]
      · have hp : pickOlder a q = a := by simp [pickOlder, hlt]
        rw [hp]
        exact Nat.le_of_not_lt hlt
    · exact ih (pickOlder a r) ht

theorem oldestEntry_spec (c : Cache) (hne : c ≠ []) :
    ∃ p, oldestEntry c = some p ∧ p ∈ c ∧
      ∀ q ∈ c, p.2.timestamp ≤ q.2.timestamp := by
  match c, hne with
  | p :: t, _ =>
    refine ⟨t.foldl pickOlder p, rfl, ?_, ?_⟩
    · rcases foldl_pickOlder_mem t p with h | h
      · rw [h]; exact List.mem_cons_self p t
      · exact List.mem_cons_of_mem p h
    · intro q hq
      rcases List.mem_cons.mp hq with he | ht
      · exact he ▸ foldl_pickOlder_le_acc t p
      · exact foldl_pickOlder_le_mem t p q ht

theorem oldestEntry_append_single (c : Cache) (x : String × CachedMetadata)
    (hne : c ≠ []) (h : ∀ p ∈ c, p.2.timestamp ≤ x.2.timestamp) :
    oldestEntry (c ++ [x]) = oldestEntry c := by
  match c, hne with
  | p :: t, _ =>
    show some ((t ++ [x]).foldl pickOlder p) = some (t.foldl pickOlder p)
    rw [List.foldl_append]
    congr 1
    show pickOlder (t.foldl pickOlder p) x = t.foldl pickOlder p
    unfold pickOlder
    rw [if_neg]
    intro hlt
    have hb : t.foldl pickOlder p = p ∨ t.foldl pickOlder p ∈ t :=
      foldl_pickOlder_mem t p
    have hmem : t.foldl pickOlder p ∈ p :: t := by
      rcases hb with hb | hb
      · rw [hb]; exact List.mem_cons_self p t
      · exact List.mem_cons_of_mem p hb
    exact Nat.not_lt_of_le (h _ hmem) hlt

theorem evictIfOversized_of_le (c : Cache) (h : c.length ≤ 200) :
    evictIfOversized c = c := by
  unfold evictIfOversized
  rw [if_neg (by omega)]

/-- Lookup after a write: when the prior cache respects the size bound and
all stored timestamps are at most `now` (both hold for every state the
code itself produces), the freshly written entry is present afterwards. -/
theorem updateMetadataCache_objGet (cache : Cache) (now : Nat) (url : String)
    (m : MetadataIn)
    (hlen : cache.length ≤ 200)
    (hts : ∀ p ∈ cache, p.2.timestamp ≤ now) :
    objGet (updateMetadataCache now url m cache) (normalizeYoutubeUrl url)
      = some ⟨m.seconds, m.title, m.channelName, m.currentTime, m.isLive, now⟩ := by
  unfold updateMetadataCache
  by_cases hk : (objGet cache (normalizeYoutubeUrl url)).isSome
  · have hlen1 : (objSet cache (normalizeYoutubeUrl url)
        ⟨m.seconds, m.title, m.channelName, m.currentTime, m.isLive, now⟩).length
        = cache.length := by
      rw [objSet_length]; simp [hk]
    rw [evictIfOversized_of_le _ (by omega)]
    exact objGet_objSet_self _ _ _
  · have hnone : objGet cache (normalizeYoutubeUrl url) = none :=
      Option.not_isSome_iff_eq_none.mp hk
    have happ := objSet_of_absent cache (normalizeYoutubeUrl url)
      ⟨m.seconds, m.title, m.channelName, m.currentTime, m.isLive, now⟩ hnone
    have hlen1 : (objSet cache (normalizeYoutubeUrl url)
        ⟨m.seconds, m.title, m.channelName, m.currentTime, m.isLive, now⟩).length
        = cache.length + 1 := by
      rw [objSet_length]; simp [hk]
    by_cases hov : 200 < cache.length + 1
    · have hc200 : cache.length = 200 := by omega
      have hne : cache ≠ [] := by
        intro hnil; rw [hnil] at hc200; simp at hc200
      have hold : oldestEntry (objSet cache (normalizeYoutubeUrl url)
          ⟨m.seconds, m.title, m.channelName, m.currentTime, m.isLive, now⟩)
          = oldestEntry cache := by
        rw [happ]
        exact oldestEntry_append_single cache _ hne (fun p hp => hts p hp)
      obtain ⟨p0, hp0eq, hp0mem, _⟩ := oldestEntry_spec cache hne
      have hp0key : p0.1 ≠ normalizeYoutubeUrl url := by
        exact (objGet_eq_none_iff cache (normalizeYoutubeUrl url)).mp hnone p0 hp0mem
      unfold evictIfOversized
      rw [if_pos (by omega), hold, hp0eq]
      rw [objGet_objDelete_ne _ _ _ (fun he => hp0key he.symm)]
      exact objGet_objSet_self _ _ _
    · rw [evictIfOversized_of_le _ (by omega)]
      exact objGet_objSet_self _ _ _

/-- Lookup after an overwriting write: when the key was already present
and the prior cache respects the size bound, no eviction can happen and
the lookup returns exactly the incoming fields. -/
theorem updateMetadataCache_objGet_overwrite (cache : Cache) (now : Nat)
    (url : String) (m : MetadataIn)
    (hlen : cache.length ≤ 200)
    (hk : (objGet cache (normalizeYoutubeUrl url)).isSome) :
    objGet (updateMetadataCache now url m cache) (normalizeYoutubeUrl url)
      = some ⟨m.seconds, m.title, m.channelName, m.currentTime, m.isLive, now⟩ := by
  unfold updateMetadataCache
  have hlen1 : (objSet cache (normalizeYoutubeUrl url)
      ⟨m.seconds, m.title, m.channelName, m.currentTime, m.isLive, now⟩).length
      = cache.length := by
    rw [objSet_length]; simp [hk]
  rw [evictIfOversized_of_le _ (by omega)]
  exact objGet_objSet_self _ _ _

/-! ## Claims C1, C5, C10 — the cache store -/

/-- C1 (counterexample).  The claim says a metadata update with incoming
`seconds = 0, isLive = false` leaves a previously stored `seconds = 600`
intact.  In the code, `updateMetadataCache` overwrites the entry
unconditionally — there is no `shouldUpdateDuration` merge rule anywhere
in the repository — so the stored seconds become 0, not 600. -/
theorem c1_counterexample :
    (objGet (updateMetadataCache 2000 (canonicalWatchUrl "abc12345678")
        merge_incoming merge_cache)
      (canonicalWatchUrl "abc12345678")).map CachedMetadata.seconds = some 0
    ∧ decide ((0 : ℚ) = 600) = false := by
  constructor
  · rfl
  · decide

/-- C1 (amended).  For every cache state within the 200-entry bound that
holds an entry with `seconds = 600, isLive = false` for the key, a
metadata update with incoming `seconds = 0, isLive = false` overwrites the
entry unconditionally: the stored seconds equal the incoming 0.  (No merge
rule exists; all incoming fields replace the previous entry and the
timestamp is refreshed.) -/
theorem c1_zero_overwrites_good_duration (cache : Cache) (now : Nat)
    (url : String) (m : MetadataIn) (existing : CachedMetadata)
    (hlen : cache.length ≤ 200)
    (hex : objGet cache (normalizeYoutubeUrl url) = some existing)
    (hsec : existing.seconds = 600) (hlive : existing.isLive = false)
    (hmsec : m.seconds = 0) (hmlive : m.isLive = false) :
    (objGet (updateMetadataCache now url m cache)
      (normalizeYoutubeUrl url)).map CachedMetadata.seconds = some 0 := by
  have hk : (objGet cache (normalizeYoutubeUrl url)).isSome := by
    rw [hex]; rfl
  rw [updateMetadataCache_objGet_overwrite cache now url m hlen hk]
  simp [hmsec]

/-- Witness for the amended C1 at a concrete input. -/
theorem c1_zero_overwrites_good_duration_witness :
    (merge_cache.length ≤ 200
      ∧ objGet merge_cache (normalizeYoutubeUrl (canonicalWatchUrl "abc12345678"))
          = some ⟨600, "A", "Ch", 0, false, 1000⟩
      ∧ (⟨600, "A", "Ch", 0, false, 1000⟩ : CachedMetadata).seconds = 600
      ∧ (⟨600, "A", "Ch", 0, false, 1000⟩ : CachedMetadata).isLive = false
      ∧ merge_incoming.seconds = 0 ∧ merge_incoming.isLive = false)
    ∧ (objGet (updateMetadataCache 2000 (canonicalWatchUrl "abc12345678")
        merge_incoming merge_cache)
      (normalizeYoutubeUrl (canonicalWatchUrl "abc12345678"))).map
        CachedMetadata.seconds = some 0 :=
  ⟨⟨by decide, by rfl, by rfl, by rfl, by rfl, by rfl⟩,
    c1_zero_overwrites_good_duration merge_cache 2000
      (canonicalWatchUrl "abc12345678") merge_incoming
      ⟨600, "A", "Ch", 0, false, 1000⟩
      (by decide) (by rfl) (by rfl) (by rfl) (by rfl) (by rfl)⟩

/-- C5 (confirmed).  For every cache state with 200 entries (the size
bound) and pairwise distinct keys — the invariant of a JS object — writing
under a fresh key leaves exactly 200 entries, and the removed entry is one
whose timestamp is minimal among the 201 entries present just before
eviction; exactly one entry is removed. -/
theorem c5_eviction_bound (cache : Cache) (now : Nat) (url : String)
    (m : MetadataIn)
    (hnd : (cache.map Prod.fst).Nodup)
    (hlen : cache.length = 200)
    (hnew : objGet cache (normalizeYoutubeUrl url) = none) :
    (updateMetadataCache now url m cache).length = 200 ∧
    ∃ p, p ∈ objSet cache (normalizeYoutubeUrl url)
            ⟨m.seconds, m.title, m.channelName, m.currentTime, m.isLive, now⟩ ∧
      (∀ q ∈ objSet cache (normalizeYoutubeUrl url)
            ⟨m.seconds, m.title, m.channelName, m.currentTime, m.isLive, now⟩,
          p.2.timestamp ≤ q.2.timestamp) ∧
      updateMetadataCache now url m cache
        = objDelete (objSet cache (normalizeYoutubeUrl url)
            ⟨m.seconds, m.title, m.channelName, m.currentTime, m.isLive, now⟩) p.1 := by
  have happ := objSet_of_absent cache (normalizeYoutubeUrl url)
    ⟨m.seconds, m.title, m.channelName, m.currentTime, m.isLive, now⟩ hnew
  have hk : ¬ (objGet cache (normalizeYoutubeUrl url)).isSome := by
    rw [hnew]; simp
  have hlen1 : (objSet cache (normalizeYoutubeUrl url)
      ⟨m.seconds, m.title, m.channelName, m.currentTime, m.isLive, now⟩).length
      = cache.length + 1 := by
    rw [objSet_length]; simp [hk]
  have hne : objSet cache (normalizeYoutubeUrl url)
      ⟨m.seconds, m.title, m.channelName, m.currentTime, m.isLive, now⟩ ≠ [] := by
    intro hnil
    rw [hnil] at hlen1
    simp at hlen1
  obtain ⟨p0, hp0eq, hp0mem, hp0min⟩ := oldestEntry_spec _ hne
  have hupd : updateMetadataCache now url m cache
      = objDelete (objSet cache (normalizeYoutubeUrl url)
          ⟨m.seconds, m.title, m.channelName, m.currentTime, m.isLive, now⟩) p0.1 := by
    unfold updateMetadataCache evictIfOversized
    rw [if_pos (by omega), hp0eq]
  have hndkeys : ((objSet cache (normalizeYoutubeUrl url)
      ⟨m.seconds, m.title, m.channelName, m.currentTime, m.isLive, now⟩).map
        Prod.fst).Nodup := by
    rw [happ]
    simp only [List.map_append, List.map_cons, List.map_nil]
    rw [List.nodup_append]
    refine ⟨hnd, List.nodup_singleton _, ?_⟩
    intro a ha hb
    simp only [List.mem_singleton] at hb
    subst hb
    obtain ⟨q, hq, hq1⟩ := List.mem_map.mp ha
    exact (objGet_eq_none_iff cache (normalizeYoutubeUrl url)).mp hnew q hq hq1
  have hdel := objDelete_length_of_mem _ p0 hndkeys hp0mem
  refine ⟨?_, p0, hp0mem, hp0min, hupd⟩
  rw [hupd]
  omega

set_option maxRecDepth 40000 in
/-- Witness for C5 at a concrete 200-entry cache. -/
theorem c5_eviction_bound_witness :
    ((eviction_cache.map Prod.fst).Nodup
      ∧ eviction_cache.length = 200
      ∧ objGet eviction_cache (normalizeYoutubeUrl "https://youtu.be/abc12345678") = none)
    ∧ (updateMetadataCache 9000 "https://youtu.be/abc12345678"
        merge_incoming eviction_cache).length = 200 :=
  ⟨⟨by decide, by decide, by decide⟩,
    (c5_eviction_bound eviction_cache 9000 "https://youtu.be/abc12345678"
      merge_incoming (by decide) (by decide) (by decide)).1⟩

/-- C10 (confirmed).  For every cache state the code can produce (at most
200 entries, all timestamps assigned by earlier `Date.now()` calls and
hence at most `now`), after `updateMetadataCache url m` the cache maps
`normalizeYoutubeUrl url` to exactly the incoming fields with the fresh
timestamp `now`, replacing any previous entry; every URL variant with the
same normalisation reads back the same entry. -/
theorem c10_write_through (cache : Cache) (now : Nat) (url : String)
    (m : MetadataIn)
    (hlen : cache.length ≤ 200)
    (hts : ∀ p ∈ cache, p.2.timestamp ≤ now) :
    objGet (updateMetadataCache now url m cache) (normalizeYoutubeUrl url)
      = some ⟨m.seconds, m.title, m.channelName, m.currentTime, m.isLive, now⟩ ∧
    ∀ url2, normalizeYoutubeUrl url2 = normalizeYoutubeUrl url →
      objGet (updateMetadataCache now url m cache) (normalizeYoutubeUrl url2)
        = some ⟨m.seconds, m.title, m.channelName, m.currentTime, m.isLive, now⟩ := by
  have h := updateMetadataCache_objGet cache now url m hlen hts
  exact ⟨h, fun url2 he => he ▸ h⟩

/-- Witness for C10 at a concrete input; the variant clause is
instantiated with the `youtu.be` short link of the same video. -/
theorem c10_write_through_witness :
    (write_through_cache.length ≤ 200
      ∧ ∀ p ∈ write_through_cache, p.2.timestamp ≤ 5000)
    ∧ objGet (updateMetadataCache 5000 (canonicalWatchUrl "abc12345678")
        merge_incoming write_through_cache)
        (normalizeYoutubeUrl "https://youtu.be/abc12345678")
      = some ⟨0, "A", "Ch", 0, false, 5000⟩ :=
  ⟨⟨by decide, by decide⟩,
    (c10_write_through write_through_cache 5000 (canonicalWatchUrl "abc12345678")
      merge_incoming (by decide) (by decide)).2
      "https://youtu.be/abc12345678" (by rfl)⟩

/-! ## Claims C2, C3, C4 — the background sync path -/

/-- C2 (counterexample).  The claim says a batch with two tabs on the same
video starts exactly one underlying fetch.  `handleStealthSync` starts one
fetch per batch element with no deduplication and no in-flight set: the
two-tab batch fetches the URL twice. -/
theorem c2_counterexample :
    ((handleStealthSync envGood
        [⟨1, canonicalWatchUrl "abc12345678"⟩, ⟨2, canonicalWatchUrl "abc12345678"⟩]).fetched.count
      (canonicalWatchUrl "abc12345678")) = 2 ∧ decide ((2 : Nat) = 1) = false := by
  constructor
  · rfl
  · decide

/-- C2 (amended).  A batch with two tabs on the same URL starts two
fetches, one per request (no deduplication and no URL normalisation happen
in the background).  Because each tab's event is computed by the same
deterministic extraction from the same URL's response, the two tab ids
receive `tab-synced` events carrying identical metadata: an event payload
is delivered to one tab id exactly when it is delivered to the other. -/
theorem c2_per_request_fetch (env : String → FetchOutcome) (i j : Nat)
    (u : String) (s : ℚ) (t c : String) (l : Bool) :
    (handleStealthSync env [⟨i, u⟩, ⟨j, u⟩]).fetched = [u, u] ∧
    (BgEvent.tabSynced i s t c l ∈ (handleStealthSync env [⟨i, u⟩, ⟨j, u⟩]).events
      ↔ BgEvent.tabSynced j s t c l ∈ (handleStealthSync env [⟨i, u⟩, ⟨j, u⟩]).events) := by
  refine ⟨rfl, ?_⟩
  simp only [handleStealthSync, List.map_cons, List.map_nil, List.flatten_cons,
    List.flatten_nil, List.append_nil, List.append_assoc]
  unfold processTab
  cases hp : processPayload env u with
  | none => simp
  | some p =>
    simp only [List.cons_append, List.nil_append, List.mem_cons,
      List.mem_singleton]
    constructor
    · rintro (h | h | h)
      · obtain ⟨h1, h2, h3, h4, h5⟩ := BgEvent.tabSynced.inj h
        right; left
        rw [h2, h3, h4, h5]
      · obtain ⟨h1, h2, h3, h4, h5⟩ := BgEvent.tabSynced.inj h
        subst h1
        left
        rw [h2, h3, h4, h5]
      · exact absurd h (by simp)
    · rintro (h | h | h)
      · obtain ⟨h1, h2, h3, h4, h5⟩ := BgEvent.tabSynced.inj h
        subst h1
        right; left
        rw [h2, h3, h4, h5]
      · obtain ⟨h1, h2, h3, h4, h5⟩ := BgEvent.tabSynced.inj h
        left
        rw [h2, h3, h4, h5]
      · exact absurd h (by simp)

/-- Witness for the amended C2 at a concrete two-tab batch. -/
theorem c2_per_request_fetch_witness :
    (handleStealthSync envGood [⟨1, canonicalWatchUrl "abc12345678"⟩,
        ⟨2, canonicalWatchUrl "abc12345678"⟩]).fetched
      = [canonicalWatchUrl "abc12345678", canonicalWatchUrl "abc12345678"] ∧
    (BgEvent.tabSynced 1 300 "T" "C" false
        ∈ (handleStealthSync envGood [⟨1, canonicalWatchUrl "abc12345678"⟩,
            ⟨2, canonicalWatchUrl "abc12345678"⟩]).events
      ↔ BgEvent.tabSynced 2 300 "T" "C" false
        ∈ (handleStealthSync envGood [⟨1, canonicalWatchUrl "abc12345678"⟩,
            ⟨2, canonicalWatchUrl "abc12345678"⟩]).events) :=
  c2_per_request_fetch envGood 1 2 (canonicalWatchUrl "abc12345678") 300 "T" "C" false

/-- C3 (counterexample).  The claim says a request whose URL has a fresh
usable cache entry is answered from the cache with no network fetch.
`handleStealthSync` never reads the metadata cache — it has no cache
access at all — and fetches every request: a one-element batch performs a
fetch no matter what any cache holds. -/
theorem c3_counterexample :
    (handleStealthSync envGood [⟨1, canonicalWatchUrl "abc12345678"⟩]).fetched
      = [canonicalWatchUrl "abc12345678"]
    ∧ ([canonicalWatchUrl "abc12345678"] : List String).isEmpty = false := by
  constructor
  · rfl
  · rfl

/-- C3 (amended).  There is no freshness short-circuit in the background:
`handleStealthSync` performs a network fetch for every request of every
batch, regardless of cache contents (the cache is only consulted by the
popup/manager callers when they assemble the batch). -/
theorem c3_no_freshness_short_circuit (env : String → FetchOutcome)
    (tabs : List TabToSync) :
    (handleStealthSync env tabs).fetched = tabs.map (·.url) :=
  rfl

/-- Witness for the amended C3 at a concrete one-tab batch. -/
theorem c3_no_freshness_short_circuit_witness :
    (handleStealthSync envGood [⟨1, canonicalWatchUrl "abc12345678"⟩]).fetched
      = [canonicalWatchUrl "abc12345678"] :=
  c3_no_freshness_short_circuit envGood [⟨1, canonicalWatchUrl "abc12345678"⟩]

/-- C4 (counterexample).  The claim says a rate-limit interstitial on item
2 of 5 processes item 1, emits `sync-error` for item 2, and never attempts
items 3–5.  The code fetches all five items (the batch runs in parallel
with no abort), detects no interstitial, and never emits `sync-error`; the
interstitial page even produces a junk `tab-synced` event from its
`<title>` fallback. -/
theorem c4_counterexample :
    (handleStealthSync envRateLimited rateLimitBatch).fetched
      = [canonicalWatchUrl "v1", canonicalWatchUrl "v2", canonicalWatchUrl "v3",
         canonicalWatchUrl "v4", canonicalWatchUrl "v5"]
    ∧ (handleStealthSync envRateLimited rateLimitBatch).events
      = [.tabSynced 1 300 "T" "C" false,
         .tabSynced 2 0 "Sorry..." "Unknown Channel" false,
         .tabSynced 3 300 "T" "C" false,
         .tabSynced 4 300 "T" "C" false,
         .tabSynced 5 300 "T" "C" false,
         .syncComplete]
    ∧ ((handleStealthSync envRateLimited rateLimitBatch).events.all
        (fun e => ! isSyncErrorEvent e)) = true := by
  refine ⟨rfl, by decide, by decide⟩

/-- C4 (amended).  The background never aborts a batch and never emits
`sync-error`: every request of every batch is fetched (the consent check
and all error handling only skip a single item's events), and no event of
any run is a `sync-error`. -/
theorem c4_no_batch_abort (env : String → FetchOutcome) (tabs : List TabToSync) :
    (handleStealthSync env tabs).fetched = tabs.map (·.url) ∧
    ((handleStealthSync env tabs).events.all (fun e => ! isSyncErrorEvent e)) = true := by
  refine ⟨rfl, ?_⟩
  rw [List.all_eq_true]
  intro e hmem
  have hmem' : e ∈ (tabs.map (processTab env)).flatten ++ [BgEvent.syncComplete] := hmem
  rcases List.mem_append.mp hmem' with h | h
  · obtain ⟨l, hl, hm⟩ := List.mem_flatten.mp h
    obtain ⟨tab, htab, hleq⟩ := List.mem_map.mp hl
    rw [← hleq] at hm
    unfold processTab at hm
    cases hp : processPayload env tab.url with
    | none => rw [hp] at hm; simp at hm
    | some p =>
      rw [hp] at hm
      simp only [List.mem_singleton] at hm
      subst hm
      rfl
  · simp only [List.mem_singleton] at h
    subst h
    rfl

/-- Witness for the amended C4 at the concrete rate-limit batch. -/
theorem c4_no_batch_abort_witness :
    (handleStealthSync envRateLimited rateLimitBatch).fetched
      = rateLimitBatch.map (fun t => t.url) ∧
    ((handleStealthSync envRateLimited rateLimitBatch).events.all
      (fun e => ! isSyncErrorEvent e)) = true :=
  c4_no_batch_abort envRateLimited rateLimitBatch

/-! ## Claim C9 — the content script's live payload invariant -/

/-- C9 (confirmed).  Every metadata payload the content script produces —
the initial `lastMetadata`, every DOM read, and every `get-metadata`
response (which either re-reads the DOM or returns the previous payload) —
satisfies: `isLive = true` implies `seconds = 0`.  The DOM read sets
`seconds := isLive ? 0 : duration` directly. -/
theorem c9_live_payload_invariant :
    (initialLastMetadata.isLive = true → initialLastMetadata.seconds = 0) ∧
    (∀ dom : ContentDom, (readMetadataFromDom dom).isLive = true →
      (readMetadataFromDom dom).seconds = 0) ∧
    (∀ (prev : CachedMetadataPayload) (b : Bool) (dom : ContentDom),
      (prev.isLive = true → prev.seconds = 0) →
      ((getMetadataStep prev b dom).isLive = true →
        (getMetadataStep prev b dom).seconds = 0)) := by
  have hread : ∀ dom : ContentDom, (readMetadataFromDom dom).isLive = true →
      (readMetadataFromDom dom).seconds = 0 := by
    intro dom hl
    unfold readMetadataFromDom at hl ⊢
    simp only at hl
    simp [hl]
  refine ⟨by intro h; rfl, hread, ?_⟩
  intro prev b dom hprev
  cases b with
  | true =>
    intro h
    exact hread dom h
  | false =>
    intro h
    exact hprev h

/-- Witness for C9: a visible live badge yields a payload with
`isLive = true` and `seconds = 0`. -/
theorem c9_live_payload_invariant_witness :
    (readMetadataFromDom live_dom).isLive = true ∧
    (readMetadataFromDom live_dom).seconds = 0 :=
  ⟨by decide, c9_live_payload_invariant.2.1 live_dom (by decide)⟩

/-! ## Claim C8 — SPA-navigation staleness detection and retry -/

/-- C8 (confirmed).  When the id in the page's structured data and the id
derived from the location both exist and differ, the injected probe does
not take the optimistic skip path: it reports an SPA transition, which
makes the outer handler re-scrape through the content script.  That retry
driver performs at most two `get-metadata` reads; when the first read is
not accepted it waits the fixed 500 ms backoff before the single retry,
and when both reads fail it leaves the video's metadata fields untouched
(only `currentTime` from the probe is kept) and unresolved for the
cycle. -/
theorem c8_spa_mismatch_forces_rescrape (hasMetadata : Bool) (env : ProbeEnv)
    (v : VideoState) (expected : Option String)
    (hplayer : truthyStr env.playerVideoId = true)
    (hcur : truthyStr (currentVideoIdOf env) = true)
    (hmismatch : env.playerVideoId ≠ currentVideoIdOf env) :
    injectedProbe hasMetadata env = .spa env.currentTime (currentVideoIdOf env) ∧
    (∀ ct, injectedProbe hasMetadata env ≠ .skip ct) ∧
    (∀ r1 r2, (spaRetry v env.currentTime expected r1 r2).reads ≤ 2) ∧
    (∀ r1 r2, contentMetaOk r1 expected = false →
      (spaRetry v env.currentTime expected r1 r2).waitedMs = 500) ∧
    (∀ r1 r2, contentMetaOk r1 expected = false →
      contentMetaOk r2 expected = false →
      (spaRetry v env.currentTime expected r1 r2).video
          = { v with currentTime := env.currentTime } ∧
        (spaRetry v env.currentTime expected r1 r2).resolved = false) := by
  have hspa : isSpaTransition env = true := by
    simp [isSpaTransition, hplayer, hcur, hmismatch]
  have hinj : injectedProbe hasMetadata env
      = .spa env.currentTime (currentVideoIdOf env) := by
    simp [injectedProbe, hspa]
  refine ⟨hinj, ?_, ?_, ?_, ?_⟩
  · intro ct h
    rw [hinj] at h
    exact absurd h (by simp)
  · intro r1 r2
    unfold spaRetry
    cases r1 with
    | none =>
      cases r2 with
      | none => simp
      | some m2 =>
        cases hok2 : contentMetaOk (some m2) expected <;> simp [hok2]
    | some m1 =>
      cases hok1 : contentMetaOk (some m1) expected with
      | true => simp [hok1]
      | false =>
        cases r2 with
        | none => simp [hok1]
        | some m2 =>
          cases hok2 : contentMetaOk (some m2) expected <;> simp [hok1, hok2]
  · intro r1 r2 hfail1
    unfold spaRetry
    cases r1 with
    | none =>
      cases r2 with
      | none => simp
      | some m2 =>
        cases hok2 : contentMetaOk (some m2) expected <;> simp [hok2]
    | some m1 =>
      rw [hfail1]
      cases r2 with
      | none => simp
      | some m2 =>
        cases hok2 : contentMetaOk (some m2) expected <;> simp [hok2]
  · intro r1 r2 hfail1 hfail2
    unfold spaRetry
    cases r1 with
    | none =>
      cases r2 with
      | none => exact ⟨rfl, rfl⟩
      | some m2 => rw [hfail2]; exact ⟨rfl, rfl⟩
    | some m1 =>
      rw [hfail1]
      cases r2 with
      | none => exact ⟨rfl, rfl⟩
      | some m2 => rw [hfail2]; exact ⟨rfl, rfl⟩

/-- Witness for C8 at a concrete mismatching probe (both content-script
reads fail). -/
theorem c8_spa_mismatch_forces_rescrape_witness :
    (truthyStr spa_env.playerVideoId = true
      ∧ truthyStr (currentVideoIdOf spa_env) = true
      ∧ spa_env.playerVideoId ≠ currentVideoIdOf spa_env)
    ∧ injectedProbe true spa_env = .spa 7 (currentVideoIdOf spa_env)
    ∧ (spaRetry spa_video 7 (some "newid123") none none).video
        = { spa_video with currentTime := 7 }
    ∧ (spaRetry spa_video 7 (some "newid123") none none).resolved = false :=
  ⟨⟨by decide, by decide, by decide⟩,
    (c8_spa_mismatch_forces_rescrape true spa_env spa_video (some "newid123")
      (by decide) (by decide) (by decide)).1,
    ((c8_spa_mismatch_forces_rescrape true spa_env spa_video (some "newid123")
      (by decide) (by decide) (by decide)).2.2.2.2 none none (by decide) (by decide)).1,
    ((c8_spa_mismatch_forces_rescrape true spa_env spa_video (some "newid123")
      (by decide) (by decide) (by decide)).2.2.2.2 none none (by decide) (by decide)).2⟩

/-! ## Claims C6, C7 — the URL normaliser -/

theorem safeChar_ne (c d : Char) (h : isSafeIdChar c = true)
    (hd : isSafeIdChar d = false) : c ≠ d := by
  intro he
  rw [he, hd] at h
  exact Bool.false_ne_true h

theorem safeChar_gt32 (c : Char) (h : isSafeIdChar c = true) : 32 < c.toNat := by
  have h' : c.isAlpha = true ∨ c.isDigit = true ∨ c = '-' ∨ c = '_' := by
    simpa [isSafeIdChar] using h
  rcases h' with h' | h' | h' | h'
  · have h2 : c.isUpper = true ∨ c.isLower = true := by
      simpa [Char.isAlpha] using h'
    rcases h2 with h2 | h2
    · have h3 : 65 ≤ c.val ∧ c.val ≤ 90 := by
        simpa [Char.isUpper] using h2
      have h4 : (65 : Nat) ≤ c.toNat := h3.1
      omega
    · have h3 : 97 ≤ c.val ∧ c.val ≤ 122 := by
        simpa [Char.isLower] using h2
      have h4 : (97 : Nat) ≤ c.toNat := h3.1
      omega
  · have h3 : 48 ≤ c.val ∧ c.val ≤ 57 := by
      simpa [Char.isDigit] using h'
    have h4 : (48 : Nat) ≤ c.toNat := h3.1
    omega
  · subst h'; decide
  · subst h'; decide

theorem safeChar_not_c0 (c : Char) (h : isSafeIdChar c = true) :
    isC0OrSpace c = false := by
  have := safeChar_gt32 c h
  simp only [isC0OrSpace, decide_eq_false_iff_not]
  omega

theorem safeChar_not_tabnl (c : Char) (h : isSafeIdChar c = true) :
    isTabOrNewline c = false := by
  have h1 : c ≠ '\t' := safeChar_ne c '\t' h (by decide)
  have h2 : c ≠ '\n' := safeChar_ne c '\n' h (by decide)
  have h3 : c ≠ '\r' := safeChar_ne c '\r' h (by decide)
  simp only [isTabOrNewline, decide_eq_false_iff_not]
  rintro (rfl | rfl | rfl)
  · exact h1 rfl
  · exact h2 rfl
  · exact h3 rfl

theorem splitOnChar_no_sep (sep : Char) (l : List Char)
    (h : ∀ c ∈ l, c ≠ sep) : splitOnChar sep l = [l] := by
  induction l with
  | nil => rfl
  | cons c t ih =>
    have hc : c ≠ sep := h c (List.mem_cons_self c t)
    have ht := ih (fun d hd => h d (List.mem_cons_of_mem c hd))
    simp [splitOnChar, hc, ht]

theorem pctDecode_eq_self (l : List Char)
    (h : ∀ c ∈ l, c ≠ '%' ∧ c ≠ '+') : pctDecode l = l := by
  induction l with
  | nil => rfl
  | cons c t ih =>
    have hc := h c (List.mem_cons_self c t)
    have ht := ih (fun d hd => h d (List.mem_cons_of_mem c hd))
    rw [pctDecode.eq_def]
    simp only [hc.1, hc.2, if_false, ite_false, ht]

theorem sanitize_canon (id : String) (hne : id.toList ≠ [])
    (hall : ∀ c ∈ id.toList, isSafeIdChar c = true) :
    sanitizeUrl (canonicalWatchUrl id)
      = "https://www.youtube.com/watch?v=".toList ++ id.toList := by
  have h1 : (canonicalWatchUrl id).toList.filter (fun c => ¬ isTabOrNewline c)
      = "https://www.youtube.com/watch?v=".toList ++ id.toList := by
    have h0 : (canonicalWatchUrl id).toList
        = "https://www.youtube.com/watch?v=".toList ++ id.toList := rfl
    rw [h0, List.filter_append]
    have hL : "https://www.youtube.com/watch?v=".toList.filter
        (fun c => ¬ isTabOrNewline c) = "https://www.youtube.com/watch?v=".toList := by decide
    have hI : id.toList.filter (fun c => ¬ isTabOrNewline c) = id.toList := by
      apply List.filter_eq_self.mpr
      intro c hc
      simp [safeChar_not_tabnl c (hall c hc)]
    rw [hL, hI]
  have h2 : ("https://www.youtube.com/watch?v=".toList ++ id.toList).dropWhile
      isC0OrSpace = "https://www.youtube.com/watch?v=".toList ++ id.toList := rfl
  have h3 : (("https://www.youtube.com/watch?v=".toList ++ id.toList).reverse.dropWhile
        isC0OrSpace).reverse
      = "https://www.youtube.com/watch?v=".toList ++ id.toList := by
    obtain ⟨c, t, hct⟩ := List.exists_cons_of_ne_nil
      (by simpa using hne : id.toList.reverse ≠ [])
    have hcmem : c ∈ id.toList := by
      rw [← List.mem_reverse, hct]
      exact List.mem_cons_self c t
    have hcfalse : isC0OrSpace c = false := safeChar_not_c0 c (hall c hcmem)
    rw [List.reverse_append, hct, List.cons_append,
      List.dropWhile_cons_of_neg (by simp [hcfalse]), ← List.cons_append, ← hct,
      ← List.reverse_append, List.reverse_reverse]
  unfold sanitizeUrl
  rw [h1]
  show (List.dropWhile isC0OrSpace (List.dropWhile isC0OrSpace
      ("https://www.youtube.com/watch?v=".toList ++ id.toList)).reverse).reverse
    = "https://www.youtube.com/watch?v=".toList ++ id.toList
  rw [h2, h3]

theorem takeWhile_v_query (id : String)
    (hall : ∀ c ∈ id.toList, isSafeIdChar c = true) :
    ("v=".toList ++ id.toList).takeWhile (· ≠ '#') = "v=".toList ++ id.toList := by
  rw [List.takeWhile_append]
  rw [if_pos (by decide)]
  have : id.toList.takeWhile (· ≠ '#') = id.toList := by
    apply List.takeWhile_eq_self_iff.mpr
    intro c hc
    simp [safeChar_ne c '#' (hall c hc) (by decide)]
  rw [this]

theorem parseUrl_canon (id : String) (hne : id.toList ≠ [])
    (hall : ∀ c ∈ id.toList, isSafeIdChar c = true) :
    parseUrl (canonicalWatchUrl id)
      = some ⟨"www.youtube.com", "/watch", "v=" ++ id⟩ := by
  unfold parseUrl
  rw [sanitize_canon id hne hall]
  have hps : parseScheme ("https://www.youtube.com/watch?v=".toList ++ id.toList)
      = some ⟨"www.youtube.com", "/watch",
          String.mk (("v=".toList ++ id.toList).takeWhile (· ≠ '#'))⟩ := rfl
  rw [hps, takeWhile_v_query id hall]
  rfl

theorem searchParamsGet_v (id : String)
    (hall : ∀ c ∈ id.toList, isSafeIdChar c = true) :
    searchParamsGet ("v=" ++ id) "v" = some id := by
  have hsplit : splitOnChar '&' ("v=" ++ id).toList = [("v=" ++ id).toList] := by
    apply splitOnChar_no_sep
    intro c hc
    have hc' : c ∈ "v=".toList ++ id.toList := hc
    rcases List.mem_append.mp hc' with h | h
    · have h2 : c = 'v' ∨ c = '=' := by simpa using h
      rcases h2 with rfl | rfl <;> decide
    · exact safeChar_ne c '&' (hall c h) (by decide)
  have hdec : pctDecode id.toList = id.toList := by
    apply pctDecode_eq_self
    intro c hc
    exact ⟨safeChar_ne c '%' (hall c hc) (by decide),
      safeChar_ne c '+' (hall c hc) (by decide)⟩
  unfold searchParamsGet
  rw [hsplit]
  show some (String.mk (pctDecode ("v=" ++ id).toList.tail.tail)) = some id
  have htt : ("v=" ++ id).toList.tail.tail = id.toList := rfl
  rw [htt, hdec]
  rfl

theorem normalize_canonical_fixed (id : String) (hsafe : isSafeId id = true) :
    normalizeYoutubeUrl (canonicalWatchUrl id) = canonicalWatchUrl id := by
  have hsafe' : id.toList.isEmpty = false ∧ id.toList.all isSafeIdChar = true := by
    simpa [isSafeId] using hsafe
  have hne : id.toList ≠ [] := by
    intro h
    rw [h] at hsafe'
    simp at hsafe'
  have hall : ∀ c ∈ id.toList, isSafeIdChar c = true := by
    intro c hc
    exact List.all_eq_true.mp hsafe'.2 c hc
  have hne' : id ≠ "" := by
    intro h
    rw [h] at hne
    exact hne rfl
  unfold normalizeYoutubeUrl
  rw [parseUrl_canon id hne hall]
  have hc1 : strContains "www.youtube.com" "youtube.com" = true := rfl
  have hc2 : strContains "www.youtube.com" "youtu.be" = false := rfl
  simp only [hc1, hc2]
  rw [searchParamsGet_v id hall]
  simp [hne', canonicalWatchUrl]

/-- C6 (counterexample).  The claim asserts idempotence for every input
string.  A `youtu.be` path whose id contains `&` breaks it: the first
normalisation embeds the raw id in a query string, and the second pass
reparses that query and truncates at the `&`. -/
theorem c6_counterexample :
    normalizeYoutubeUrl "https://youtu.be/a&b"
      = "https://www.youtube.com/watch?v=a&b"
    ∧ normalizeYoutubeUrl (normalizeYoutubeUrl "https://youtu.be/a&b")
      = "https://www.youtube.com/watch?v=a"
    ∧ decide (normalizeYoutubeUrl (normalizeYoutubeUrl "https://youtu.be/a&b")
        = normalizeYoutubeUrl "https://youtu.be/a&b") = false := by
  refine ⟨by decide, by decide, by decide⟩

/-- C6 (amended).  Normalisation is idempotent on every input that it
leaves unchanged, and on every input it maps to a canonical watch URL
whose video id is non-empty and consists of query-safe characters
(letters, digits, `-`, `_` — the YouTube id alphabet); ids containing
query metacharacters such as `&` escape this and break idempotence. -/
theorem c6_idempotent_on_safe (x : String)
    (h : normalizeYoutubeUrl x = x
      ∨ ∃ id, isSafeId id = true ∧ normalizeYoutubeUrl x = canonicalWatchUrl id) :
    normalizeYoutubeUrl (normalizeYoutubeUrl x) = normalizeYoutubeUrl x := by
  rcases h with h | ⟨id, hsafe, h⟩
  · rw [h]
    exact h
  · rw [h]
    exact normalize_canonical_fixed id hsafe

/-- Witness for the amended C6: the `youtu.be` short link normalises to
the canonical form with a safe id, and normalising again is the
identity. -/
theorem c6_idempotent_on_safe_witness :
    (isSafeId "abc12345678" = true
      ∧ normalizeYoutubeUrl "https://youtu.be/abc12345678"
          = canonicalWatchUrl "abc12345678")
    ∧ normalizeYoutubeUrl (normalizeYoutubeUrl "https://youtu.be/abc12345678")
        = normalizeYoutubeUrl "https://youtu.be/abc12345678" :=
  ⟨⟨by decide, by decide⟩,
    c6_idempotent_on_safe "https://youtu.be/abc12345678"
      (Or.inr ⟨"abc12345678", by decide, by decide⟩)⟩

/-- C7 (confirmed).  The three URL forms of the scenario all normalise to
the single canonical string, and `normalizeYoutubeUrl` returns its input
unchanged both on any string the URL parser rejects and on any parsed URL
whose host is not recognised as the video platform (the function is total,
so it never throws). -/
theorem c7_canonical_convergence :
    (normalizeYoutubeUrl "https://youtu.be/abc12345678"
        = "https://www.youtube.com/watch?v=abc12345678"
      ∧ normalizeYoutubeUrl "https://www.youtube.com/watch?v=abc12345678&t=90s"
        = "https://www.youtube.com/watch?v=abc12345678"
      ∧ normalizeYoutubeUrl "https://www.youtube.com/shorts/abc12345678"
        = "https://www.youtube.com/watch?v=abc12345678")
    ∧ (∀ url, parseUrl url = none → normalizeYoutubeUrl url = url)
    ∧ (∀ url u, parseUrl url = some u →
        strContains u.hostname "youtube.com" = false →
        strContains u.hostname "youtu.be" = false →
        normalizeYoutubeUrl url = url) := by
  refine ⟨⟨by decide, by decide, by decide⟩, ?_, ?_⟩
  · intro url h
    unfold normalizeYoutubeUrl
    rw [h]
  · intro url u hp h1 h2
    unfold normalizeYoutubeUrl
    rw [hp]
    simp [h1, h2]

/-- Witness for C7: a non-URL string and a non-YouTube URL both pass
through unchanged. -/
theorem c7_canonical_convergence_witness :
    (parseUrl "not a url" = none
      ∧ normalizeYoutubeUrl "not a url" = "not a url")
    ∧ (parseUrl "http://example.com/x" = some ⟨"example.com", "/x", ""⟩
      ∧ strContains "example.com" "youtube.com" = false
      ∧ strContains "example.com" "youtu.be" = false
      ∧ normalizeYoutubeUrl "http://example.com/x" = "http://example.com/x") :=
  ⟨⟨by decide, c7_canonical_convergence.2.1 "not a url" (by decide)⟩,
    ⟨by decide, by decide, by decide,
      c7_canonical_convergence.2.2 "http://example.com/x" ⟨"example.com", "/x", ""⟩
        (by decide) (by decide) (by decide)⟩⟩

end YtTabs
